import Mathlib

/-!
Verification development for the Nextcloud Collectives sync plugin
(`src/main.ts`).  The synchronization engine is shallowly embedded:
JavaScript strings become `List Char`, the Obsidian vault and the remote
WebDAV tree become finite association lists inside a `World` record, and
each method of the plugin becomes a pure state-passing function.  Fallible
remote/local primitives are modelled with `Except`; failure injection for
the individual primitives (read faults, put faults, stat faults, listing
fault) is part of the `World` so that the error-handling paths of the code
are reachable in the model.
-/

/-- JavaScript strings are modelled as lists of characters. -/
abbrev Chars := List Char

/-- Errors thrown by the modelled remote/local primitives.  The code never
inspects an error beyond (in the polling helpers) an HTTP status, so two
abstract kinds suffice: a not-found stat answer and anything else. -/
inductive Err where
  | notFound : Err
  | other : Err
deriving DecidableEq, Repr

/-- `type` field of a WebDAV directory entry (`RemoteFile` in `main.ts`). -/
inductive EntryType where
  | file : EntryType
  | directory : EntryType
deriving DecidableEq, Repr

/-- Entry of a remote directory listing, after the `RemoteFile` interface of
`main.ts` (the `lastmod`, `size` and `etag` fields are never read by the
sync engine and are omitted). -/
structure RemoteFile where
  filename : Chars
  basename : Chars
  type : EntryType
deriving DecidableEq, Repr

/-- The `NextcloudPluginSettings` interface of `main.ts`. -/
structure NextcloudPluginSettings where
  nextcloudUrl : Chars
  username : Chars
  password : Chars
  collectivePath : Chars
  syncInterval : Nat
  syncOnStartup : Bool
  syncOnSave : Bool
  localFolderPath : Chars
  accessToken : Chars
  refreshToken : Chars
  tokenExpires : Nat
  tokenType : Chars
  useOAuth : Bool
deriving DecidableEq, Repr

/-- The `DEFAULT_SETTINGS` constant of `main.ts`. -/
def DEFAULT_SETTINGS : NextcloudPluginSettings where
  nextcloudUrl := "https://your-nextcloud-instance.com".toList
  username := []
  password := []
  collectivePath := "/Collectives".toList
  syncInterval := 5
  syncOnStartup := true
  syncOnSave := true
  localFolderPath := []
  accessToken := []
  refreshToken := []
  tokenExpires := 0
  tokenType := []
  useOAuth := false

/-- Combined state of the local vault and the remote WebDAV tree, plus the
fault-injection oracles of the modelled primitives and two write counters
used to state frame properties.  `localFiles`/`remoteFiles` associate a
path with a whole-file text content; `localFolders`/`remoteDirs` list the
directories known to exist. -/
structure World where
  localFiles : List (Chars × Chars)
  localFolders : List Chars
  remoteFiles : List (Chars × Chars)
  remoteDirs : List Chars
  readFaults : List Chars
  getFaults : List Chars
  putFaults : List Chars
  statFaults : List Chars
  listFault : Bool
  localWrites : Nat
  remoteWrites : Nat
deriving DecidableEq, Repr

/-- Lookup in an association list (the model of reading a file's content). -/
def findFile (fs : List (Chars × Chars)) (p : Chars) : Option Chars :=
  match fs with
  | [] => none
  | (k, v) :: rest => if k = p then some v else findFile rest p

/-- Create-or-replace in an association list (the model of an
unconditional-overwrite write). -/
def setAssoc (fs : List (Chars × Chars)) (k : Chars) (v : Chars) :
    List (Chars × Chars) :=
  match fs with
  | [] => [(k, v)]
  | (k', v') :: rest =>
      if k' = k then (k, v) :: rest else (k', v') :: setAssoc rest k v

/-- JavaScript `s.startsWith(sep)` for the single character `/`. -/
def startsWithSlash : Chars → Bool
  | '/' :: _ => true
  | _ => false

/-- JavaScript `s.endsWith(sep)` for the single character `/`. -/
def endsWithSlash : Chars → Bool
  | [] => false
  | [c] => c == '/'
  | _ :: c :: rest => endsWithSlash (c :: rest)

/-- JavaScript `s.split(sep)` for the single character `/`. -/
def splitSlash : Chars → List Chars
  | [] => [[]]
  | c :: rest =>
      let r := splitSlash rest
      if c = '/' then [] :: r
      else
        match r with
        | [] => [[c]]
        | s :: ss => (c :: s) :: ss

/-- JavaScript `s.substring(0, s.lastIndexOf(sep))` for `/`: everything up
to (excluding) the last slash, and the empty string when there is none. -/
def upToLastSlash (s : Chars) : Chars :=
  match s.reverse.dropWhile (fun c => c != '/') with
  | [] => []
  | _ :: rest => rest.reverse

/-- The last path component: everything after the last slash. -/
def lastComponent (s : Chars) : Chars :=
  (s.reverse.takeWhile (fun c => c != '/')).reverse

/-- JavaScript `s.replace(pat, q)` with the empty replacement string `q`:
remove the first (leftmost) occurrence of `pat` from `s`; when `pat` does
not occur, `s` is returned unchanged. -/
def replaceFirst (pat : Chars) : Chars → Chars
  | [] => if pat.isPrefixOf ([] : Chars) then List.drop pat.length [] else []
  | c :: rest =>
      if pat.isPrefixOf (c :: rest) then List.drop pat.length (c :: rest)
      else c :: replaceFirst pat rest

/-- `main.ts` lines 235-238 / 275-277: force a leading slash onto the
configured collective path. -/
def leadingSlash (p : Chars) : Chars :=
  if startsWithSlash p then p else '/' :: p

/-- `main.ts` lines 239-241: force a trailing slash. -/
def trailingSlash (p : Chars) : Chars :=
  if endsWithSlash p then p else p ++ ['/']

/-- The remote path a local file is uploaded to (`uploadFile`,
`main.ts` lines 234-253): normalize the collective path to a leading and a
trailing slash, strip the configured local base as a raw string prefix,
strip one further leading slash, and concatenate. -/
def uploadRemotePath (s : NextcloudPluginSettings) (filePath : Chars) : Chars :=
  let remotePath := trailingSlash (leadingSlash s.collectivePath)
  let relativePath :=
    if !s.localFolderPath.isEmpty && s.localFolderPath.isPrefixOf filePath then
      filePath.drop s.localFolderPath.length
    else filePath
  let relativePath :=
    if startsWithSlash relativePath then relativePath.drop 1 else relativePath
  remotePath ++ relativePath

/-- The local path a remote file is reconciled to (`downloadChanges`,
`main.ts` lines 284-291): normalize the collective path to a leading slash
only, remove its first literal occurrence from the remote filename, and
prepend the configured local base when it is nonempty. -/
def downloadLocalPath (s : NextcloudPluginSettings) (filename : Chars) : Chars :=
  let remotePath := leadingSlash s.collectivePath
  let localPath := replaceFirst remotePath filename
  if !s.localFolderPath.isEmpty then s.localFolderPath ++ localPath
  else localPath

/-- Remote `client.stat(path)`: errors with `other` when a stat fault is
injected for the path, succeeds when the path exists remotely (as a
directory or a file), and errors with `notFound` otherwise. -/
def statRemote (w : World) (p : Chars) : Except Err Unit :=
  if p ∈ w.statFaults then .error .other
  else if p ∈ w.remoteDirs ∨ (findFile w.remoteFiles p).isSome then .ok ()
  else .error .notFound

/-- Remote `client.createDirectory(path)`. -/
def createDirectory (w : World) (p : Chars) : World :=
  { w with remoteDirs := p :: w.remoteDirs }

/-- Local `vault.adapter.write(path, content)` (overwrite an existing
file). -/
def writeLocal (w : World) (p : Chars) (content : Chars) : World :=
  { w with localFiles := setAssoc w.localFiles p content,
           localWrites := w.localWrites + 1 }

/-- Local `vault.create(path, content)` (create a new file). -/
def createLocal (w : World) (p : Chars) (content : Chars) : World :=
  { w with localFiles := setAssoc w.localFiles p content,
           localWrites := w.localWrites + 1 }

/-- Local `vault.createFolder(dirPath)` with the surrounding try/catch of
`main.ts` lines 312-316: an already-existing folder is tolerated. -/
def createLocalFolder (w : World) (p : Chars) : World :=
  if p ∈ w.localFolders then w
  else { w with localFolders := p :: w.localFolders }

/-- Body of the per-component loop of `ensureDirectoryExists`
(`main.ts` lines 358-366): stat the current prefix and create the
directory whenever the stat call throws. -/
def ensureStep (w : World) (cur : Chars) : World :=
  match statRemote w cur with
  | .ok _ => w
  | .error _ => createDirectory w cur

/-- The per-component loop of `ensureDirectoryExists`: extend the current
path prefix with the next component and run `ensureStep` on it. -/
def ensureLoop (w : World) (cur : Chars) : List Chars → World
  | [] => w
  | comp :: rest =>
      ensureLoop (ensureStep w (cur ++ '/' :: comp)) (cur ++ '/' :: comp) rest

/-- `ensureDirectoryExists` (`main.ts` lines 349-371): split the directory
path on slashes, drop empty components, and walk the increasing prefixes
root-to-leaf.  In the model `createDirectory` cannot fail, so the outer
catch-and-rethrow never fires and the function is total. -/
def ensureDirectoryExists (w : World) (directory : Chars) : World :=
  ensureLoop w [] ((splitSlash directory).filter (fun c => !c.isEmpty))

/-- `uploadFile` (`main.ts` lines 227-267): read the local file, compute
the remote path, ensure the remote parent directory chain, then write the
content remotely with unconditional overwrite.  Any error is rethrown
(lines 263-266), carrying the state mutated so far. -/
def uploadFile (s : NextcloudPluginSettings) (w : World) (filePath : Chars) :
    Except (Err × World) World :=
  if filePath ∈ w.readFaults then .error (.other, w)
  else match findFile w.localFiles filePath with
  | none => .error (.other, w)
  | some content =>
      let remotePath := uploadRemotePath s filePath
      let w1 := ensureDirectoryExists w (upToLastSlash remotePath)
      if remotePath ∈ w1.putFaults then .error (.other, w1)
      else .ok { w1 with
                  remoteFiles := setAssoc w1.remoteFiles remotePath content,
                  remoteWrites := w1.remoteWrites + 1 }

/-- The local markdown files of the vault (`vault.getMarkdownFiles()`). -/
def markdownPaths (w : World) : List Chars :=
  (w.localFiles.map Prod.fst).filter (fun p => ".md".toList.isSuffixOf p)

/-- The files the upload phase iterates over (`uploadChanges`,
`main.ts` lines 218-220): all markdown files whose path starts with the
given folder path, as a raw string prefix. -/
def selectedFiles (w : World) (folderPath : Chars) : List Chars :=
  (markdownPaths w).filter (fun p => folderPath.isPrefixOf p)

/-- The sequential loop of `uploadChanges` (`main.ts` lines 222-224):
no try/catch here, so an error from `uploadFile` aborts the loop. -/
def uploadLoop (s : NextcloudPluginSettings) (w : World) :
    List Chars → Except (Err × World) World
  | [] => .ok w
  | p :: rest =>
      match uploadFile s w p with
      | .error ew => .error ew
      | .ok w1 => uploadLoop s w1 rest

/-- `uploadChanges` (`main.ts` lines 215-225). -/
def uploadChanges (s : NextcloudPluginSettings) (w : World)
    (folderPath : Chars) : Except (Err × World) World :=
  uploadLoop s w (selectedFiles w folderPath)

/-- The recursive remote listing (`client.getDirectoryContents(dir,
deep)`), returning every remote file and directory strictly below `dir`,
with the `basename` field WebDAV reports (the last path component). -/
def listDeep (w : World) (dir : Chars) : List RemoteFile :=
  (w.remoteFiles.map (fun f => RemoteFile.mk f.1 (lastComponent f.1)
        EntryType.file)).filter
      (fun e => (dir ++ ['/']).isPrefixOf e.filename)
  ++ (w.remoteDirs.map (fun d => RemoteFile.mk d (lastComponent d)
        EntryType.directory)).filter
      (fun e => (dir ++ ['/']).isPrefixOf e.filename)

/-- `getRemoteFiles` (`main.ts` lines 330-347): a failing listing call is
caught and turned into the empty listing. -/
def getRemoteFiles (w : World) (remotePath : Chars) : List RemoteFile :=
  if w.listFault then [] else listDeep w remotePath

/-- Body of the per-entry loop of `downloadChanges` (`main.ts` lines
282-323): skip non-files and non-markdown names; otherwise fetch the
remote content, and either compare-and-overwrite an existing local file or
create a missing one (ensuring its parent folder first).  Errors from the
fetch or the local read are rethrown by the catch of lines 324-327. -/
def downloadOne (s : NextcloudPluginSettings) (w : World) (e : RemoteFile) :
    Except (Err × World) World :=
  match e.type with
  | .directory => .ok w
  | .file =>
      if !".md".toList.isSuffixOf e.basename then .ok w
      else
        let localPath := downloadLocalPath s e.filename
        if e.filename ∈ w.getFaults then .error (.other, w)
        else match findFile w.remoteFiles e.filename with
        | none => .error (.other, w)
        | some content =>
            match findFile w.localFiles localPath with
            | some localContent =>
                if localPath ∈ w.readFaults then .error (.other, w)
                else if content ≠ localContent then
                  .ok (writeLocal w localPath content)
                else .ok w
            | none =>
                let dirPath := upToLastSlash localPath
                let w1 := if !dirPath.isEmpty then createLocalFolder w dirPath
                          else w
                .ok (createLocal w1 localPath content)

/-- The sequential loop of `downloadChanges`: it sits inside a single
try/catch whose handler rethrows, so an error on one entry aborts the
remaining entries. -/
def downloadLoop (s : NextcloudPluginSettings) (w : World) :
    List RemoteFile → Except (Err × World) World
  | [] => .ok w
  | e :: rest =>
      match downloadOne s w e with
      | .error ew => .error ew
      | .ok w1 => downloadLoop s w1 rest

/-- `downloadChanges` (`main.ts` lines 269-328).  The `folderPath`
argument is accepted and ignored, as in the source. -/
def downloadChanges (s : NextcloudPluginSettings) (w : World)
    (_folderPath : Chars) : Except (Err × World) World :=
  downloadLoop s w (getRemoteFiles w (leadingSlash s.collectivePath))

/-- `main.ts` line 194: `this.settings.localFolderPath || '/'`. -/
def folderPathOf (s : NextcloudPluginSettings) : Chars :=
  if s.localFolderPath.isEmpty then ['/'] else s.localFolderPath

/-- `syncWithNextcloud` (`main.ts` lines 181-213), for a connected client:
run the upload phase and then the download phase; the surrounding
try/catch reports an error and keeps the state mutated so far. -/
def syncWithNextcloud (s : NextcloudPluginSettings) (w : World) : World :=
  let folderPath := folderPathOf s
  match uploadChanges s w folderPath with
  | .error (_, w1) => w1
  | .ok w1 =>
      match downloadChanges s w1 folderPath with
      | .error (_, w2) => w2
      | .ok w2 => w2

/-- The state reached by a phase whether it succeeded or threw (the thrown
error carries the partially mutated state). -/
def resultWorld : Except (Err × World) World → World
  | .ok w => w
  | .error (_, w) => w

/-- Success branch of `pollForCredentials` (`main.ts` lines 428-437):
store the login name and app password as an OAuth-style token, set the
token mode flag, and clear the password. -/
def pollForCredentialsSuccess (s : NextcloudPluginSettings)
    (loginName appPassword : Chars) : NextcloudPluginSettings :=
  { s with username := loginName,
           accessToken := appPassword,
           useOAuth := true,
           password := [] }

/-- Success branch of `pollForLoginFlow` (`main.ts` lines 557-565): store
the login name and app password as the password, and clear the token mode
flag.  The `accessToken` field is left untouched by the source. -/
def pollForLoginFlowSuccess (s : NextcloudPluginSettings)
    (loginName appPassword : Chars) : NextcloudPluginSettings :=
  { s with username := loginName,
           password := appPassword,
           useOAuth := false }

/-- An empty vault/remote pair with no faults, used to build the concrete
scenarios below. -/
def emptyWorld : World := ⟨[], [], [], [], [], [], [], [], false, 0, 0⟩

/-- A list is a `isPrefixOf`-prefix of itself followed by anything. -/
theorem isPrefixOf_app (l t : Chars) : l.isPrefixOf (l ++ t) = true := by
  induction l with
  | nil => simp [List.isPrefixOf]
  | cons a as ih => simp [List.isPrefixOf, ih]

/-- When the pattern is a prefix of the string, `replaceFirst` removes
exactly that prefix. -/
theorem replaceFirst_of_isPrefixOf (pat s : Chars)
    (h : pat.isPrefixOf s = true) :
    replaceFirst pat s = s.drop pat.length := by
  cases s with
  | nil => simp [replaceFirst, h]
  | cons c rest => simp [replaceFirst, h]

/-- Removing the first occurrence of `pat` from `pat ++ t` leaves `t`. -/
theorem replaceFirst_app (pat t : Chars) :
    replaceFirst pat (pat ++ t) = t := by
  rw [replaceFirst_of_isPrefixOf pat (pat ++ t) (isPrefixOf_app pat t)]
  exact List.drop_left pat t

/-- Prepending a character to a nonempty string does not change its last
character. -/
theorem endsWithSlash_cons (x : Char) (c : Chars) (h : c ≠ []) :
    endsWithSlash (x :: c) = endsWithSlash c := by
  cases c with
  | nil => exact absurd rfl h
  | cons d t => rfl

/-- Overwriting one binding of an association list keeps every key
present. -/
theorem findFile_setAssoc_isSome (fs : List (Chars × Chars)) (k v p : Chars)
    (h : (findFile fs p).isSome = true) :
    (findFile (setAssoc fs k v) p).isSome = true := by
  induction fs with
  | nil => simp [findFile] at h
  | cons hd tl ih =>
      obtain ⟨k', v'⟩ := hd
      by_cases hkk : k' = k
      · subst hkk
        by_cases hkp : k' = p
        · subst hkp; simp [findFile, setAssoc]
        · simp [findFile, setAssoc, hkp] at h ⊢
          exact h
      · by_cases hkp : k' = p
        · subst hkp; simp [findFile, setAssoc, hkk]
        · simp [findFile, setAssoc, hkk, hkp] at h ⊢
          exact ih h

/-- The key written by `setAssoc` is present afterwards. -/
theorem findFile_setAssoc_self (fs : List (Chars × Chars)) (k v : Chars) :
    findFile (setAssoc fs k v) k = some v := by
  induction fs with
  | nil => simp [findFile, setAssoc]
  | cons hd tl ih =>
      obtain ⟨k', v'⟩ := hd
      by_cases hkk : k' = k
      · subst hkk; simp [findFile, setAssoc]
      · simp [findFile, setAssoc, hkk]
        exact ih

/-- State extension order used by the frame theorems: every local file,
remote file, local folder and remote directory present in the first state
is still present in the second. -/
def World.le (w w' : World) : Prop :=
  (∀ p, (findFile w.localFiles p).isSome = true →
    (findFile w'.localFiles p).isSome = true) ∧
  (∀ p, (findFile w.remoteFiles p).isSome = true →
    (findFile w'.remoteFiles p).isSome = true) ∧
  (∀ p, p ∈ w.localFolders → p ∈ w'.localFolders) ∧
  (∀ p, p ∈ w.remoteDirs → p ∈ w'.remoteDirs)

/-- `World.le` is reflexive. -/
theorem World.le_refl (w : World) : World.le w w :=
  ⟨fun _ h => h, fun _ h => h, fun _ h => h, fun _ h => h⟩

/-- `World.le` is transitive. -/
theorem World.le_trans (a b c : World) (h1 : World.le a b)
    (h2 : World.le b c) : World.le a c :=
  ⟨fun p h => h2.1 p (h1.1 p h),
   fun p h => h2.2.1 p (h1.2.1 p h),
   fun p h => h2.2.2.1 p (h1.2.2.1 p h),
   fun p h => h2.2.2.2 p (h1.2.2.2 p h)⟩

/-- Creating a remote directory only adds to the remote directory set. -/
theorem createDirectory_le (w : World) (p : Chars) :
    World.le w (createDirectory w p) :=
  ⟨fun _ h => h, fun _ h => h, fun _ h => h,
   fun _ h => List.mem_cons_of_mem p h⟩

/-- One level of the directory ensurer only adds remote state. -/
theorem ensureStep_le (w : World) (cur : Chars) :
    World.le w (ensureStep w cur) := by
  unfold ensureStep
  cases statRemote w cur with
  | ok _ => exact World.le_refl w
  | error e => exact createDirectory_le w cur

/-- The directory-ensurer loop only adds remote state. -/
theorem ensureLoop_le (l : List Chars) :
    ∀ w cur, World.le w (ensureLoop w cur l) := by
  induction l with
  | nil => intro w cur; exact World.le_refl w
  | cons comp rest ih =>
      intro w cur
      simp only [ensureLoop]
      exact World.le_trans _ _ _ (ensureStep_le w (cur ++ '/' :: comp)) (ih _ _)

/-- `ensureDirectoryExists` only adds remote state. -/
theorem ensureDirectoryExists_le (w : World) (d : Chars) :
    World.le w (ensureDirectoryExists w d) :=
  ensureLoop_le _ w []

/-- A remote overwrite keeps every file present. -/
theorem putRemote_le (w : World) (k v : Chars) :
    World.le w { w with remoteFiles := setAssoc w.remoteFiles k v,
                        remoteWrites := w.remoteWrites + 1 } :=
  ⟨fun _ h => h, fun q h => findFile_setAssoc_isSome _ k v q h,
   fun _ h => h, fun _ h => h⟩

/-- A local overwrite keeps every file present. -/
theorem writeLocal_le (w : World) (k v : Chars) :
    World.le w (writeLocal w k v) :=
  ⟨fun q h => findFile_setAssoc_isSome _ k v q h, fun _ h => h,
   fun _ h => h, fun _ h => h⟩

/-- A local file creation keeps every file present. -/
theorem createLocal_le (w : World) (k v : Chars) :
    World.le w (createLocal w k v) :=
  ⟨fun q h => findFile_setAssoc_isSome _ k v q h, fun _ h => h,
   fun _ h => h, fun _ h => h⟩

/-- A local folder creation keeps every folder present. -/
theorem createLocalFolder_le (w : World) (p : Chars) :
    World.le w (createLocalFolder w p) := by
  unfold createLocalFolder
  split
  · exact World.le_refl w
  · exact ⟨fun _ h => h, fun _ h => h,
      fun _ h => List.mem_cons_of_mem p h, fun _ h => h⟩

/-- Uploading one file only adds state, whether it succeeds or throws. -/
theorem uploadFile_le (s : NextcloudPluginSettings) (w : World) (p : Chars) :
    World.le w (resultWorld (uploadFile s w p)) := by
  unfold uploadFile
  split
  · exact World.le_refl w
  · split
    · exact World.le_refl w
    · simp only
      split
      · exact ensureDirectoryExists_le w _
      · exact World.le_trans _ _ _ (ensureDirectoryExists_le w _)
          (putRemote_le _ _ _)

/-- The upload loop only adds state, whether it completes or aborts. -/
theorem uploadLoop_le (s : NextcloudPluginSettings) (l : List Chars) :
    ∀ w, World.le w (resultWorld (uploadLoop s w l)) := by
  induction l with
  | nil => intro w; exact World.le_refl w
  | cons p rest ih =>
      intro w
      simp only [uploadLoop]
      cases h : uploadFile s w p with
      | error ew =>
          have := uploadFile_le s w p
          rw [h] at this
          exact this
      | ok w1 =>
          have hle := uploadFile_le s w p
          rw [h] at hle
          exact World.le_trans _ _ _ hle (ih w1)

/-- The upload phase only adds state. -/
theorem uploadChanges_le (s : NextcloudPluginSettings) (w : World)
    (folderPath : Chars) :
    World.le w (resultWorld (uploadChanges s w folderPath)) :=
  uploadLoop_le s _ w

/-- Reconciling one remote entry only adds state, whether it succeeds or
throws. -/
theorem downloadOne_le (s : NextcloudPluginSettings) (w : World)
    (e : RemoteFile) : World.le w (resultWorld (downloadOne s w e)) := by
  unfold downloadOne
  split
  · exact World.le_refl w
  · split
    · exact World.le_refl w
    · simp only
      split
      · exact World.le_refl w
      · split
        · exact World.le_refl w
        · split
          · split
            · exact World.le_refl w
            · split
              · exact writeLocal_le w _ _
              · exact World.le_refl w
          · split
            · exact World.le_trans _ _ _ (createLocalFolder_le w _)
                (createLocal_le _ _ _)
            · exact createLocal_le w _ _

/-- The download loop only adds state, whether it completes or aborts. -/
theorem downloadLoop_le (s : NextcloudPluginSettings) (l : List RemoteFile) :
    ∀ w, World.le w (resultWorld (downloadLoop s w l)) := by
  induction l with
  | nil => intro w; exact World.le_refl w
  | cons e rest ih =>
      intro w
      simp only [downloadLoop]
      cases h : downloadOne s w e with
      | error ew =>
          have := downloadOne_le s w e
          rw [h] at this
          exact this
      | ok w1 =>
          have hle := downloadOne_le s w e
          rw [h] at hle
          exact World.le_trans _ _ _ hle (ih w1)

/-- The download phase only adds state. -/
theorem downloadChanges_le (s : NextcloudPluginSettings) (w : World)
    (folderPath : Chars) :
    World.le w (resultWorld (downloadChanges s w folderPath)) :=
  downloadLoop_le s _ w

/-- The directory ensurer performs no file writes. -/
theorem ensureStep_remoteWrites (w : World) (cur : Chars) :
    (ensureStep w cur).remoteWrites = w.remoteWrites := by
  unfold ensureStep
  cases statRemote w cur with
  | ok _ => rfl
  | error e => rfl

/-- The directory-ensurer loop performs no file writes. -/
theorem ensureLoop_remoteWrites (l : List Chars) :
    ∀ w cur, (ensureLoop w cur l).remoteWrites = w.remoteWrites := by
  induction l with
  | nil => intro w cur; rfl
  | cons comp rest ih =>
      intro w cur
      simp only [ensureLoop]
      rw [ih, ensureStep_remoteWrites]

/-- A successful `uploadFile` performs exactly one remote write,
independently of the current remote content. -/
theorem uploadFile_ok_remoteWrites (s : NextcloudPluginSettings) (w : World)
    (p : Chars) (w' : World) (h : uploadFile s w p = .ok w') :
    w'.remoteWrites = w.remoteWrites + 1 := by
  unfold uploadFile at h
  split at h
  · exact absurd h (by simp)
  · split at h
    · exact absurd h (by simp)
    · simp only at h
      split at h
      · exact absurd h (by simp)
      · rw [show w' = _ from (Except.ok.inj h).symm]
        simp only
        unfold ensureDirectoryExists
        rw [ensureLoop_remoteWrites]

/-- A successful upload loop performs exactly one remote write per file in
its list. -/
theorem uploadLoop_ok_remoteWrites (s : NextcloudPluginSettings)
    (l : List Chars) : ∀ w w', uploadLoop s w l = .ok w' →
    w'.remoteWrites = w.remoteWrites + l.length := by
  induction l with
  | nil =>
      intro w w' h
      rw [show w' = w from (Except.ok.inj h).symm]
      rfl
  | cons p rest ih =>
      intro w w' h
      simp only [uploadLoop] at h
      split at h
      · exact absurd h (by simp)
      · next w1 heq =>
          have h1 := uploadFile_ok_remoteWrites s w p w1 heq
          have h2 := ih w1 w' h
          rw [h2, h1, List.length_cons]
          omega

/-- Settings with a configured local folder, as in the spec's examples. -/
def cfgNotes : NextcloudPluginSettings :=
  { DEFAULT_SETTINGS with localFolderPath := ("notes".toList) }

/-- A vault holding the single markdown file notes/a.md with content X. -/
def vaultOneNote : World :=
  { emptyWorld with localFiles := [("notes/a.md".toList, "X".toList)] }

/-- A vault with two markdown files where reading the first one fails. -/
def twoFilesBadRead : World :=
  { emptyWorld with
      localFiles := [("notes/a.md".toList, "A".toList),
                     ("notes/b.md".toList, "B".toList)],
      readFaults := ["notes/a.md".toList] }

/-- C1, counterexample: with two tracked files notes/a.md and notes/b.md
and a local read fault on the first, the upload batch aborts immediately:
it returns the rethrown error with the world unchanged, although
notes/b.md was selected and would have been uploadable — the batch did not
continue with the next file. -/
theorem c1_counterexample :
    uploadChanges cfgNotes twoFilesBadRead (folderPathOf cfgNotes) =
      .error (.other, twoFilesBadRead) ∧
    ("notes/b.md".toList) ∈ selectedFiles twoFilesBadRead
      (folderPathOf cfgNotes) ∧
    twoFilesBadRead.remoteWrites = 0 := by
  refine ⟨rfl, by decide, rfl⟩

/-- C1, amended: a failure affecting a single file aborts the remaining
files of its batch.  `uploadFile` rethrows its error and the upload loop
has no per-file handler, and the download loop sits inside one try/catch
whose handler rethrows, so in both phases an error on the head file makes
the whole loop return that error, with the tail unprocessed. -/
theorem c1_per_file_failure_aborts_batch :
    (∀ (s : NextcloudPluginSettings) (w : World) (p : Chars)
        (rest : List Chars) (e : Err) (w' : World),
        uploadFile s w p = .error (e, w') →
        uploadLoop s w (p :: rest) = .error (e, w')) ∧
    (∀ (s : NextcloudPluginSettings) (w : World) (x : RemoteFile)
        (rest : List RemoteFile) (e : Err) (w' : World),
        downloadOne s w x = .error (e, w') →
        downloadLoop s w (x :: rest) = .error (e, w')) := by
  constructor
  · intro s w p rest e w' h
    simp only [uploadLoop, h]
  · intro s w x rest e w' h
    simp only [downloadLoop, h]

/-- C1, witness: the amended theorem applied to the concrete aborting
batch. -/
theorem c1_per_file_failure_aborts_batch_witness :
    uploadLoop cfgNotes twoFilesBadRead
      ["notes/a.md".toList, "notes/b.md".toList] =
      .error (.other, twoFilesBadRead) :=
  c1_per_file_failure_aborts_batch.1 cfgNotes twoFilesBadRead
    ("notes/a.md".toList) ["notes/b.md".toList] Err.other twoFilesBadRead rfl

/-- C2, counterexample: one tracked file, empty remote, no faults.  The
first full sync pass performs one remote write; running the pass again on
the resulting state performs a second remote write (the upload phase
overwrites unconditionally), so the second run does not perform zero file
writes. -/
theorem c2_counterexample :
    (syncWithNextcloud cfgNotes vaultOneNote).remoteWrites = 1 ∧
    (syncWithNextcloud cfgNotes
      (syncWithNextcloud cfgNotes vaultOneNote)).remoteWrites = 2 ∧
    (syncWithNextcloud cfgNotes
      (syncWithNextcloud cfgNotes vaultOneNote)).localWrites = 0 := by
  refine ⟨rfl, rfl, rfl⟩

/-- C2, amended: a second sync pass run on the state left by a first pass,
with no changes in between, is not write-free: whenever its upload phase
completes it performs exactly one remote write per markdown file selected
by the upload filter, so it performs zero writes only when no file is
selected. -/
theorem c2_second_run_upload_writes :
    ∀ (s : NextcloudPluginSettings) (w w2 : World),
      uploadChanges s (syncWithNextcloud s w) (folderPathOf s) = .ok w2 →
      w2.remoteWrites = (syncWithNextcloud s w).remoteWrites +
        (selectedFiles (syncWithNextcloud s w) (folderPathOf s)).length := by
  intro s w w2 h
  exact uploadLoop_ok_remoteWrites s _ _ _ h

/-- C2, witness: the amended theorem applied to the one-file scenario,
where the second run's upload phase performs exactly one remote write. -/
theorem c2_second_run_upload_writes_witness :
    (resultWorld (uploadChanges cfgNotes
        (syncWithNextcloud cfgNotes vaultOneNote)
        (folderPathOf cfgNotes))).remoteWrites =
      (syncWithNextcloud cfgNotes vaultOneNote).remoteWrites +
      (selectedFiles (syncWithNextcloud cfgNotes vaultOneNote)
        (folderPathOf cfgNotes)).length :=
  c2_second_run_upload_writes cfgNotes vaultOneNote _ rfl

/-- Settings whose collective path carries a trailing slash. -/
def cfgTrailing : NextcloudPluginSettings :=
  { DEFAULT_SETTINGS with collectivePath := ("/Collectives/".toList),
                          localFolderPath := ("notes".toList) }

/-- C3, counterexample: with localBase notes and remote root written as
/Collectives/ (trailing slash), the file notes/a.md maps to remote
/Collectives/a.md, and mapping that back yields notesa.md — the slash
separating the base from the remainder is lost, which is not a normalized
form of notes/a.md. -/
theorem c3_counterexample :
    downloadLocalPath cfgTrailing
      (uploadRemotePath cfgTrailing ("notes/a.md".toList)) =
      ("notesa.md".toList) ∧
    ("notesa.md".toList) ≠ ("notes/a.md".toList) := by
  refine ⟨rfl, by decide⟩

/-- C3, amended: the round-trip law holds under the side conditions the
counterexamples force: the configured local base is nonempty, the
collective path is nonempty and has no trailing slash, and the local path
lies under the base in the component sense (base, slash, remainder).  Then
mapping a local path to its remote path and back yields exactly the
original path, with no residual normalization. -/
theorem c3_roundtrip (s : NextcloudPluginSettings) (rest : Chars)
    (hb : s.localFolderPath ≠ []) (hc : s.collectivePath ≠ [])
    (hcs : endsWithSlash s.collectivePath = false) :
    downloadLocalPath s
      (uploadRemotePath s (s.localFolderPath ++ '/' :: rest)) =
      s.localFolderPath ++ '/' :: rest := by
  have hc' : endsWithSlash (leadingSlash s.collectivePath) = false := by
    unfold leadingSlash
    split
    · exact hcs
    · rw [endsWithSlash_cons '/' s.collectivePath hc]
      exact hcs
  have hbne : s.localFolderPath.isEmpty = false := by
    cases h : s.localFolderPath with
    | nil => exact absurd h hb
    | cons a l => rfl
  have hupload : uploadRemotePath s (s.localFolderPath ++ '/' :: rest) =
      leadingSlash s.collectivePath ++ '/' :: rest := by
    unfold uploadRemotePath trailingSlash
    simp only [hc', Bool.false_eq_true, if_false, hbne, Bool.not_false,
      isPrefixOf_app, Bool.and_self, if_true, List.drop_left,
      startsWithSlash, List.drop_one, List.tail_cons, List.append_assoc,
      List.singleton_append]
  rw [hupload]
  unfold downloadLocalPath
  simp only [replaceFirst_app, hbne, Bool.not_false, if_true]

/-- C3, witness: the amended round-trip law at localBase notes, collective
path /Collectives and remainder a.md, recovering notes/a.md exactly. -/
theorem c3_roundtrip_witness :
    downloadLocalPath cfgNotes
      (uploadRemotePath cfgNotes ("notes".toList ++ '/' :: "a.md".toList)) =
      "notes".toList ++ '/' :: "a.md".toList :=
  c3_roundtrip cfgNotes ("a.md".toList) (by decide) (by decide) (by decide)

/-- The settings reached from the defaults by completing the OAuth-style
browser flow and then the login-flow-v2 browser flow. -/
def bothCreds : NextcloudPluginSettings :=
  pollForLoginFlowSuccess
    (pollForCredentialsSuccess DEFAULT_SETTINGS ("u".toList) ("tok".toList))
    ("u".toList) ("pw".toList)

/-- C4, counterexample: after completing the OAuth flow (token tok) and
then the login-flow-v2 flow (app password pw) — both reachable transitions
from the default settings — the password and the access token are
simultaneously nonempty: completing the login flow switched the mode flag
but did not clear the other mode's credential field. -/
theorem c4_counterexample :
    bothCreds.password = ("pw".toList) ∧
    bothCreds.accessToken = ("tok".toList) ∧
    bothCreds.password ≠ [] ∧ bothCreds.accessToken ≠ [] ∧
    bothCreds.useOAuth = false := by
  refine ⟨rfl, rfl, by decide, by decide, rfl⟩

/-- C4, amended: completing the OAuth-style flow clears the password and
sets the token mode flag, but completing the login-flow-v2 flow only sets
the password and clears the mode flag, leaving the access token exactly as
it was — so only the useOAuth flag distinguishes the active mode, and the
two credential sets can be populated at the same time. -/
theorem c4_mode_switch_fields :
    ∀ (s : NextcloudPluginSettings) (u t p : Chars),
      ((pollForCredentialsSuccess s u t).password = [] ∧
       (pollForCredentialsSuccess s u t).useOAuth = true ∧
       (pollForCredentialsSuccess s u t).accessToken = t) ∧
      ((pollForLoginFlowSuccess s u p).accessToken = s.accessToken ∧
       (pollForLoginFlowSuccess s u p).useOAuth = false ∧
       (pollForLoginFlowSuccess s u p).password = p) :=
  fun _ _ _ _ => ⟨⟨rfl, rfl, rfl⟩, ⟨rfl, rfl, rfl⟩⟩

/-- C5: with localFolderPath empty the pass resolves its folder path to
the single character slash, and the upload filter keeps only vault paths
that start with a slash — which vault-relative paths such as notes/a.md
never do.  The sync pass therefore uploads nothing at all (the world is
returned unchanged and the remote write counter stays at zero), although
the very path computation of `uploadFile` would have produced the expected
remote path /Collectives/notes/a.md, and although the plugin's own setting
description promises that an empty local folder path means the vault
root. -/
theorem c5_empty_folder_uploads_nothing :
    selectedFiles vaultOneNote (folderPathOf DEFAULT_SETTINGS) = [] ∧
    syncWithNextcloud DEFAULT_SETTINGS vaultOneNote = vaultOneNote ∧
    (syncWithNextcloud DEFAULT_SETTINGS vaultOneNote).remoteWrites = 0 ∧
    uploadRemotePath DEFAULT_SETTINGS ("notes/a.md".toList) =
      ("/Collectives/notes/a.md".toList) := by
  refine ⟨rfl, rfl, rfl, rfl⟩

/-- An empty remote on which the stat call for /Collectives is made to
fail with a non-not-found error. -/
def statFaultWorld : World :=
  { emptyWorld with statFaults := ["/Collectives".toList] }

/-- C6, counterexample: when the stat call on /Collectives fails with an
error other than not-found, the directory ensurer does not propagate a
hard failure — it issues the create for that level anyway and completes,
so a create is not issued exactly on not-found answers. -/
theorem c6_counterexample :
    statRemote statFaultWorld ("/Collectives".toList) =
      .error Err.other ∧
    ("/Collectives".toList) ∈
      (ensureDirectoryExists statFaultWorld
        ("/Collectives".toList)).remoteDirs := by
  refine ⟨rfl, by decide⟩

/-- C6, amended: the directory ensurer walks the slash-separated prefixes
root-to-leaf, statting each; it creates the level whenever the stat call
fails with any error whatsoever (not-found or otherwise) and leaves the
state alone when the stat succeeds; a stat error never aborts the ensure
operation. -/
theorem c6_stat_error_creates :
    (∀ (w : World) (cur : Chars) (e : Err),
      statRemote w cur = .error e →
      ensureStep w cur = createDirectory w cur) ∧
    (∀ (w : World) (cur : Chars),
      statRemote w cur = .ok () → ensureStep w cur = w) := by
  constructor
  · intro w cur e h
    unfold ensureStep
    rw [h]
  · intro w cur h
    unfold ensureStep
    rw [h]

/-- C6, witness: the amended theorem applied to the injected non-not-found
stat failure on /Collectives. -/
theorem c6_stat_error_creates_witness :
    ensureStep statFaultWorld ("/Collectives".toList) =
      createDirectory statFaultWorld ("/Collectives".toList) :=
  c6_stat_error_creates.1 statFaultWorld ("/Collectives".toList) Err.other rfl

/-- C7: during the download phase, a remote markdown file whose mapped
local file exists with byte-for-byte identical content is reconciled
without any local filesystem effect: the per-entry step returns the world
completely unchanged (in particular no local write happens and the local
write counter is untouched). -/
theorem c7_identical_content_no_write :
    ∀ (s : NextcloudPluginSettings) (w : World) (e : RemoteFile) (c : Chars),
      e.type = EntryType.file →
      (".md".toList).isSuffixOf e.basename = true →
      e.filename ∉ w.getFaults →
      findFile w.remoteFiles e.filename = some c →
      downloadLocalPath s e.filename ∉ w.readFaults →
      findFile w.localFiles (downloadLocalPath s e.filename) = some c →
      downloadOne s w e = .ok w := by
  intro s w e c ht hmd hg hr hread hl
  unfold downloadOne
  rw [ht]
  simp only [hmd, Bool.not_true, Bool.false_eq_true, if_false, hg,
    if_neg, hr, hl, hread, ite_not]
  simp [hg, hread]

/-- A state where local notes/a.md and remote /Collectives/a.md hold the
same content X. -/
def syncedWorld : World :=
  { emptyWorld with
      localFiles := [("notes/a.md".toList, "X".toList)],
      remoteFiles := [("/Collectives/a.md".toList, "X".toList)],
      remoteDirs := ["/Collectives".toList] }

/-- The listing entry for the remote file /Collectives/a.md. -/
def entryA : RemoteFile :=
  ⟨"/Collectives/a.md".toList, "a.md".toList, EntryType.file⟩

/-- C7, witness: reconciling /Collectives/a.md against an identical local
notes/a.md leaves the world untouched. -/
theorem c7_identical_content_no_write_witness :
    downloadOne cfgNotes syncedWorld entryA = .ok syncedWorld :=
  c7_identical_content_no_write cfgNotes syncedWorld entryA ("X".toList)
    rfl (by decide) (by decide) (by decide) (by decide) (by decide)

/-- C8: when the recursive remote listing of the collective root fails,
the download phase treats the remote tree as empty and completes: it
returns success with the world unchanged, so zero files are processed and
no fatal error is surfaced. -/
theorem c8_listing_failure_is_empty :
    ∀ (s : NextcloudPluginSettings) (w : World) (folderPath : Chars),
      w.listFault = true → downloadChanges s w folderPath = .ok w := by
  intro s w folderPath h
  unfold downloadChanges getRemoteFiles
  rw [h]
  simp [downloadLoop]

/-- A world whose remote listing call fails. -/
def listFaultWorld : World := { emptyWorld with listFault := true }

/-- C8, witness: the download phase on a failing listing returns success
with nothing done. -/
theorem c8_listing_failure_is_empty_witness :
    downloadChanges DEFAULT_SETTINGS listFaultWorld
      (folderPathOf DEFAULT_SETTINGS) = .ok listFaultWorld :=
  c8_listing_failure_is_empty DEFAULT_SETTINGS listFaultWorld
    (folderPathOf DEFAULT_SETTINGS) rfl

/-- C9: the upload folder filter and the uploader's base strip are raw
string-prefix operations: for every nonempty configured folder L, every
tracked markdown file whose path merely begins with the string L passes
the filter, and concretely with L equal to notes the file notesX/a.md —
which is outside the notes folder — is mapped to remote
/Collectives/X/a.md, L being removed as a string prefix. -/
theorem c9_raw_string_prefix :
    (∀ (w : World) (L p : Chars), L ≠ [] →
        p ∈ markdownPaths w → L.isPrefixOf p = true →
        p ∈ selectedFiles w
          (folderPathOf { DEFAULT_SETTINGS with localFolderPath := L })) ∧
    uploadRemotePath { DEFAULT_SETTINGS with localFolderPath := ("notes".toList) }
        ("notesX/a.md".toList) = ("/Collectives/X/a.md".toList) := by
  constructor
  · intro w L p hL hmem hpre
    have hLe : L.isEmpty = false := by
      cases h : L with
      | nil => exact absurd h hL
      | cons a l => rfl
    have hfp : folderPathOf { DEFAULT_SETTINGS with localFolderPath := L } = L := by
      unfold folderPathOf
      simp [hLe]
    rw [hfp]
    unfold selectedFiles
    rw [List.mem_filter]
    exact ⟨hmem, hpre⟩
  · rfl

/-- A vault holding only notesX/a.md, a file outside the notes folder. -/
def vaultOutside : World :=
  { emptyWorld with localFiles := [("notesX/a.md".toList, "A".toList)] }

/-- C9, witness: with configured folder notes, the outside file
notesX/a.md is selected for upload. -/
theorem c9_raw_string_prefix_witness :
    ("notesX/a.md".toList) ∈ selectedFiles vaultOutside
      (folderPathOf { DEFAULT_SETTINGS with localFolderPath := ("notes".toList) }) :=
  c9_raw_string_prefix.1 vaultOutside ("notes".toList) ("notesX/a.md".toList)
    (by decide) (by decide) (by decide)

/-- C10: a full sync pass never deletes: every local file, remote file,
local folder and remote directory present before the pass is still present
after it, over every configuration and every initial pair of local and
remote states, whether the pass completes or aborts on an error. -/
theorem c10_pass_deletes_nothing :
    ∀ (s : NextcloudPluginSettings) (w : World),
      World.le w (syncWithNextcloud s w) := by
  intro s w
  unfold syncWithNextcloud
  simp only
  cases h1 : uploadChanges s w (folderPathOf s) with
  | error ew =>
      obtain ⟨e, w1⟩ := ew
      have hle := uploadChanges_le s w (folderPathOf s)
      rw [h1] at hle
      exact hle
  | ok w1 =>
      have hu := uploadChanges_le s w (folderPathOf s)
      rw [h1] at hu
      dsimp only
      cases h2 : downloadChanges s w1 (folderPathOf s) with
      | error ew =>
          obtain ⟨e, w2⟩ := ew
          have hd := downloadChanges_le s w1 (folderPathOf s)
          rw [h2] at hd
          exact World.le_trans _ _ _ hu hd
      | ok w2 =>
          have hd := downloadChanges_le s w1 (folderPathOf s)
          rw [h2] at hd
          exact World.le_trans _ _ _ hu hd

/-- C10, witness: after a concrete pass the tracked local file is still
present. -/
theorem c10_pass_deletes_nothing_witness :
    (findFile (syncWithNextcloud cfgNotes vaultOneNote).localFiles
      ("notes/a.md".toList)).isSome = true :=
  (c10_pass_deletes_nothing cfgNotes vaultOneNote).1
    ("notes/a.md".toList) (by decide)
